import Mathlib

/-!
Verification of the agent-loop core of claude-computer-with-cursor.

The repository carries two copies of the claude-api module:

* `src/src/claude-api.js` — the copy loaded by the server (`require('./claude-api')`)
  and by the tests; embedded below in namespace `ClaudeApi`.
* `src/unnamed/part_005` — an alternate copy of the same module; embedded in
  namespace `Part005`.  It differs in three observable ways: its
  `getCursorInstructions` runs `validateInstructions` on the accumulated list
  before returning, its `validateInstructions` also checks the `delay` field,
  and it synthesizes a tool-result acknowledgement only for mouse actions.

JavaScript values that the code inspects dynamically (instruction fields, the
wire action's fields) are modelled by `JVal`; a field that may be absent
altogether, and whose absence makes a property read throw a TypeError, is an
`Option`.  Fallible evaluation is `Except JsError`.
-/

/-- A dynamically typed JavaScript value as far as this code inspects one:
`undefined`, a number, or a string. -/
inductive JVal where
  | undef
  | num (n : Int)
  | str (s : String)
deriving DecidableEq, Repr

/-- JavaScript truthiness of a `JVal` (used by `if (!instruction.type)` and
`if (instruction.button && ...)`). -/
def JVal.truthy : JVal → Bool
  | .undef => false
  | .num n => n != 0
  | .str s => s != ""

/-- `typeof v === 'number'`. -/
def JVal.isNumber : JVal → Bool
  | .num _ => true
  | _ => false

/-- How a `JVal` prints inside a template literal. -/
def JVal.display : JVal → String
  | .undef => "undefined"
  | .num n => toString n
  | .str s => s

/-- An error thrown by the JavaScript code: either a runtime `TypeError`
(reading a property of `undefined`) or an explicit `throw new Error(msg)`. -/
inductive JsError where
  | typeError (msg : String)
  | error (msg : String)
deriving DecidableEq, Repr

/-- A cursor instruction object as the loop builds it and the validator reads
it: the fields a pushed instruction may carry, `undefined` when not set. -/
structure Instruction where
  type : JVal := .undef
  x : JVal := .undef
  y : JVal := .undef
  button : JVal := .undef
  delay : JVal := .undef
deriving DecidableEq, Repr

/-- A coordinates object (`mouseAction.coordinates` / `mouseAction.end`):
its `x` and `y` reads never throw, they give the stored value. -/
structure WireCoords where
  x : JVal := .undef
  y : JVal := .undef
deriving DecidableEq, Repr

/-- The engine's raw action payload, `toolUse.input.action` in the source.
`coordinates` and `end` are `Option` because reading `.x` of an absent
object throws. -/
structure WireAction where
  type : JVal := .undef
  action : JVal := .undef
  coordinates : Option WireCoords := none
  button : JVal := .undef
  clicks : JVal := .undef
  «end» : Option WireCoords := none
deriving DecidableEq, Repr

/-- `toolUse.input`: its `action` member may be absent. -/
structure ToolInput where
  action : Option WireAction := none
deriving DecidableEq, Repr

/-- `content.tool_use`: the name the block addresses and the input payload. -/
structure ToolUseField where
  name : JVal := .undef
  input : Option ToolInput := none
deriving DecidableEq, Repr

/-- One content block of an engine response, with the fields the code reads:
the `type` tag, the block `id`, the `tool_use` object and the `text`. -/
structure Block where
  type : String
  id : String := ""
  tool_use : Option ToolUseField := none
  text : String := ""
deriving DecidableEq, Repr

/-- One engine response: `response.content`, the list of blocks. -/
structure Response where
  content : List Block
deriving DecidableEq, Repr

/-- The `content` of a synthesized tool result: the opaque success marker and
the echoed screenshot. -/
structure ToolResultContent where
  result : String
  screenshot : String
deriving DecidableEq, Repr

/-- A synthesized `tool_result` acknowledgement, keyed to a tool-use id. -/
structure ToolResult where
  tool_use_id : String
  content : ToolResultContent
deriving DecidableEq, Repr

/-- A turn of the conversation, with the three content shapes the loop
pushes: the initial user turn, an assistant turn, a tool-result user turn. -/
inductive Message where
  | userInit (text : String) (image : String)
  | assistant (content : List Block)
  | userToolResults (results : List ToolResult)
deriving DecidableEq, Repr

/-- What one invocation of `getCursorInstructions` yields: the returned list
or the propagated error, how many remote calls were made, and the final
conversation. -/
structure RunOutcome where
  result : Except JsError (List Instruction)
  calls : Nat
  messages : List Message
deriving Repr

/-- The text of the initial user turn (`context` stands for the already
serialized `JSON.stringify(context)`). -/
def initialText (context goal : String) : String :=
  "Context about what I'm working on: " ++ context ++ "\n\nMy goal is: " ++ goal ++
    "\n\nPlease control my cursor to help me achieve this goal."

/-- The `switch (mouseAction.action)` of both copies (claude-api.js lines
169-216, part_005 lines 109-139): `move` reads `coordinates.x`/`.y` (a
TypeError when `coordinates` is absent), `click` distinguishes the
left/double-click pair, `drag` reads `end.x`/`.y` (a TypeError when `end` is
absent), any other sub-action falls through producing nothing. -/
def translateMouse (mouseAction : WireAction) : Except JsError (Option Instruction) :=
  if mouseAction.action = JVal.str "move" then
    match mouseAction.coordinates with
    | none => .error (.typeError "Cannot read properties of undefined (reading 'x')")
    | some c => .ok (some { type := .str "move", x := c.x, y := c.y })
  else if mouseAction.action = JVal.str "click" then
    if mouseAction.button = JVal.str "left" ∧ mouseAction.clicks = JVal.num 2 then
      .ok (some { type := .str "double-click", button := .str "left" })
    else
      .ok (some { type := .str "click", button := mouseAction.button })
  else if mouseAction.action = JVal.str "drag" then
    match mouseAction.«end» with
    | none => .error (.typeError "Cannot read properties of undefined (reading 'x')")
    | some e => .ok (some { type := .str "drag", x := e.x, y := e.y })
  else .ok none

/-- Translation of `toolUse.input.action` as the loop body performs it: an
absent action payload throws when `action.type` is read; a non-mouse action
is logged and skipped. -/
def translateAction : Option WireAction → Except JsError (Option Instruction)
  | none => .error (.typeError "Cannot read properties of undefined (reading 'type')")
  | some action =>
    if action.type = JVal.str "mouse" then translateMouse action
    else .ok none

/-- The per-instruction checks shared by both validators (the `type`
presence test and the `switch (instruction.type)` of claude-api.js lines
304-332 and part_005 lines 189-208). -/
def checkInstruction (instruction : Instruction) : Except JsError Unit :=
  if instruction.type.truthy = false then
    .error (.error "Each instruction must have a 'type' property")
  else if instruction.type = JVal.str "move" ∨ instruction.type = JVal.str "drag" then
    if instruction.x.isNumber = false ∨ instruction.y.isNumber = false then
      .error (.error (instruction.type.display ++ " instruction must have 'x' and 'y' coordinates"))
    else .ok ()
  else if instruction.type = JVal.str "click" ∨ instruction.type = JVal.str "double-click" then
    if instruction.button.truthy = true ∧
        ¬(instruction.button = JVal.str "left" ∨ instruction.button = JVal.str "right") then
      .error (.error (instruction.type.display ++ " instruction has invalid 'button' property"))
    else .ok ()
  else
    .error (.error ("Unknown instruction type: " ++ instruction.type.display))

namespace ClaudeApi

/-- The `for (const instruction of instructions)` body of
src/src/claude-api.js `validateInstructions` (lines 303-333: no delay
check). -/
def validateLoop : List Instruction → Except JsError Unit
  | [] => .ok ()
  | instruction :: rest =>
    match checkInstruction instruction with
    | .error e => .error e
    | .ok _ => validateLoop rest

/-- src/src/claude-api.js `validateInstructions` (lines 293-337): the input
here is already a Lean list, so the `Array.isArray` guard of line 298 always
passes; on success the function returns `true` (line 336). -/
def validateInstructions (instructions : List Instruction) : Except JsError Bool :=
  match validateLoop instructions with
  | .error e => .error e
  | .ok _ => .ok true

/-- State-passing rendering of the same `validateInstructions`: the
instruction array is threaded through every loop iteration, so a mutation of
it by the loop body would be visible in the second component.  The body only
reads, so each iteration hands the element back unchanged. -/
def validateLoopRun : List Instruction → Except JsError Unit × List Instruction
  | [] => (.ok (), [])
  | instruction :: rest =>
    match checkInstruction instruction with
    | .error e => (.error e, instruction :: rest)
    | .ok _ => ((validateLoopRun rest).1, instruction :: (validateLoopRun rest).2)

/-- `validateInstructions` with the array state made explicit (see
`validateLoopRun`). -/
def validateInstructionsRun (instructions : List Instruction) :
    Except JsError Bool × List Instruction :=
  match (validateLoopRun instructions).1 with
  | .error e => (.error e, (validateLoopRun instructions).2)
  | .ok _ => (.ok true, (validateLoopRun instructions).2)

/-- The condition of claude-api.js line 154,
`content.type === 'tool_use' && content.tool_use.name === 'computer'`, for a
block whose `tool_use` object is present (when it is absent the code throws
instead, see `processBlock`). -/
def isComputerToolUse (b : Block) : Bool :=
  if b.type = "tool_use" then
    match b.tool_use with
    | some tu => tu.name = JVal.str "computer"
    | none => false
  else false

/-- Processing of one content block by the loop body of
src/src/claude-api.js (lines 151-244): the computer tool-use test, the read
of `toolUse.input.action`, translation, and the synthesized acknowledgement,
which is pushed for every computer tool-use block whether or not its action
was translatable (lines 224-231 sit outside the mouse branch). -/
def processBlock (screenCapture : String) (content : Block) :
    Except JsError (Option Instruction × Option ToolResult × Bool) :=
  if content.type = "tool_use" then
    match content.tool_use with
    | none => .error (.typeError "Cannot read properties of undefined (reading 'name')")
    | some toolUse =>
      if toolUse.name = JVal.str "computer" then
        match toolUse.input with
        | none => .error (.typeError "Cannot read properties of undefined (reading 'action')")
        | some input =>
          match translateAction input.action with
          | .error e => .error e
          | .ok instr =>
            .ok (instr, some { tool_use_id := content.id,
                               content := { result := "success", screenshot := screenCapture } },
                 true)
      else .ok (none, none, false)
  else .ok (none, none, false)

/-- The `for (const content of response.content)` loop (lines 151-244):
instructions and tool results accumulate in block order, `usedTools` is the
disjunction over blocks, and a thrown TypeError aborts the whole call. -/
def processContent (screenCapture : String) :
    List Block → Except JsError (List Instruction × List ToolResult × Bool)
  | [] => .ok ([], [], false)
  | content :: rest =>
    match processBlock screenCapture content with
    | .error e => .error e
    | .ok (instr, ack, used) =>
      match processContent screenCapture rest with
      | .error e => .error e
      | .ok (instrs, acks, usedRest) =>
        .ok (instr.toList ++ instrs, ack.toList ++ acks, used || usedRest)

/-- The agent loop of src/src/claude-api.js (lines 105-271), iterating the
loop index up to `maxIterations = 10`.  The remote engine is the `oracle`,
indexed by call number; `remaining` is how many of the 10 iterations are
left.  A remote-call error or a processing TypeError becomes the outcome at
once (the `catch` of lines 261-270 rethrows); a turn without tool use breaks
out returning the accumulated instructions; otherwise the tool results are
sent back as a user turn (guarded by `toolResults.length > 0`, line 252). -/
def loopIter (oracle : Nat → Except JsError Response) (screenCapture : String) :
    Nat → Nat → List Instruction → List Message → RunOutcome
  | i, 0, instructions, messages =>
    { result := .ok instructions, calls := i, messages := messages }
  | i, remaining + 1, instructions, messages =>
    match oracle i with
    | .error e => { result := .error e, calls := i + 1, messages := messages }
    | .ok response =>
      match processContent screenCapture response.content with
      | .error e =>
        { result := .error e, calls := i + 1,
          messages := messages ++ [Message.assistant response.content] }
      | .ok (newInstructions, toolResults, usedTools) =>
        if usedTools then
          loopIter oracle screenCapture (i + 1) remaining (instructions ++ newInstructions)
            (if 0 < toolResults.length then
              messages ++ [Message.assistant response.content,
                           Message.userToolResults toolResults]
            else messages ++ [Message.assistant response.content])
        else
          { result := .ok (instructions ++ newInstructions), calls := i + 1,
            messages := messages ++ [Message.assistant response.content] }

/-- src/src/claude-api.js `getCursorInstructions` (lines 29-285): build the
initial user turn, run the agent loop, and return whatever it accumulated.
This copy performs no validation before returning (line 274). -/
def getCursorInstructions (oracle : Nat → Except JsError Response)
    (screenCapture context goal : String) : RunOutcome :=
  loopIter oracle screenCapture 0 10 []
    [Message.userInit (initialText context goal) screenCapture]

/-- The engine's turn `n` produced a response that was processed without
error, with at least one computer tool-use block (the loop keeps going). -/
def turnLoops (oracle : Nat → Except JsError Response) (screenCapture : String)
    (n : Nat) : Prop :=
  ∃ r instrs acks, oracle n = .ok r ∧
    processContent screenCapture r.content = .ok (instrs, acks, true)

/-- The engine's turn `n` produced a response that was processed without
error and contained no computer tool-use block (the loop stops). -/
def turnStops (oracle : Nat → Except JsError Response) (screenCapture : String)
    (n : Nat) : Prop :=
  ∃ r instrs acks, oracle n = .ok r ∧
    processContent screenCapture r.content = .ok (instrs, acks, false)

/-- The instructions turn `n` contributes (empty when the call or its
processing fails). -/
def turnInstrs (oracle : Nat → Except JsError Response) (screenCapture : String)
    (n : Nat) : List Instruction :=
  match oracle n with
  | .error _ => []
  | .ok r =>
    match processContent screenCapture r.content with
    | .error _ => []
    | .ok (instrs, _, _) => instrs

/-- The concatenation of the contributions of turns `i, i+1, ..., i+r-1`. -/
def turnsInstrs (oracle : Nat → Except JsError Response) (screenCapture : String)
    (i : Nat) : Nat → List Instruction
  | 0 => []
  | r + 1 => turnInstrs oracle screenCapture i ++ turnsInstrs oracle screenCapture (i + 1) r

end ClaudeApi

namespace Part005

/-- The loop body of part_005 `validateInstructions` (lines 188-213): the
shared checks plus the delay rule of lines 210-212. -/
def checkDelay (instruction : Instruction) : Except JsError Unit :=
  if instruction.delay ≠ JVal.undef ∧ instruction.delay.isNumber = false then
    .error (.error "Delay must be a number")
  else .ok ()

/-- The `for (const instruction of instructions)` of part_005 (lines
188-213). -/
def validateLoop : List Instruction → Except JsError Unit
  | [] => .ok ()
  | instruction :: rest =>
    match checkInstruction instruction with
    | .error e => .error e
    | .ok _ =>
      match checkDelay instruction with
      | .error e => .error e
      | .ok _ => validateLoop rest

/-- part_005 `validateInstructions` (lines 183-214): as in the other copy the
`Array.isArray` guard always passes here; the function returns nothing. -/
def validateInstructions (instructions : List Instruction) : Except JsError Unit :=
  validateLoop instructions

/-- Processing of one content block by the loop body of part_005 (lines
99-154).  Unlike the other copy, the acknowledgement push (lines 144-151)
sits inside the `action.type === 'mouse'` branch, so a computer tool-use
block with a non-mouse action sets `usedTools` but synthesizes no tool
result. -/
def processBlock (screenCapture : String) (content : Block) :
    Except JsError (Option Instruction × Option ToolResult × Bool) :=
  if content.type = "tool_use" then
    match content.tool_use with
    | none => .error (.typeError "Cannot read properties of undefined (reading 'name')")
    | some toolUse =>
      if toolUse.name = JVal.str "computer" then
        match toolUse.input with
        | none => .error (.typeError "Cannot read properties of undefined (reading 'action')")
        | some input =>
          match input.action with
          | none => .error (.typeError "Cannot read properties of undefined (reading 'type')")
          | some action =>
            if action.type = JVal.str "mouse" then
              match translateMouse action with
              | .error e => .error e
              | .ok instr =>
                .ok (instr, some { tool_use_id := content.id,
                                   content := { result := "success",
                                                screenshot := screenCapture } },
                     true)
            else .ok (none, none, true)
      else .ok (none, none, false)
  else .ok (none, none, false)

/-- The `for (const content of response.content)` loop of part_005 (lines
99-154). -/
def processContent (screenCapture : String) :
    List Block → Except JsError (List Instruction × List ToolResult × Bool)
  | [] => .ok ([], [], false)
  | content :: rest =>
    match processBlock screenCapture content with
    | .error e => .error e
    | .ok (instr, ack, used) =>
      match processContent screenCapture rest with
      | .error e => .error e
      | .ok (instrs, acks, usedRest) =>
        .ok (instr.toList ++ instrs, ack.toList ++ acks, used || usedRest)

/-- The agent loop of part_005 (lines 73-166).  Differences from the other
copy: its block processing (see `Part005.processBlock`) and the tool-result
user turn being pushed unconditionally (lines 162-165, no length guard). -/
def loopIter (oracle : Nat → Except JsError Response) (screenCapture : String) :
    Nat → Nat → List Instruction → List Message → RunOutcome
  | i, 0, instructions, messages =>
    { result := .ok instructions, calls := i, messages := messages }
  | i, remaining + 1, instructions, messages =>
    match oracle i with
    | .error e => { result := .error e, calls := i + 1, messages := messages }
    | .ok response =>
      match processContent screenCapture response.content with
      | .error e =>
        { result := .error e, calls := i + 1,
          messages := messages ++ [Message.assistant response.content] }
      | .ok (newInstructions, toolResults, usedTools) =>
        if usedTools then
          loopIter oracle screenCapture (i + 1) remaining (instructions ++ newInstructions)
            (messages ++ [Message.assistant response.content,
                          Message.userToolResults toolResults])
        else
          { result := .ok (instructions ++ newInstructions), calls := i + 1,
            messages := messages ++ [Message.assistant response.content] }

/-- Lines 168-171 of part_005: validate the accumulated list, raising the
validation error, then return it. -/
def finishRun (o : RunOutcome) : RunOutcome :=
  match o.result with
  | .error _ => o
  | .ok instrs =>
    match validateInstructions instrs with
    | .error e => { o with result := .error e }
    | .ok _ => o

/-- part_005 `getCursorInstructions` (lines 18-176): the agent loop followed
by validation of the accumulated instructions (lines 168-171). -/
def getCursorInstructions (oracle : Nat → Except JsError Response)
    (screenCapture context goal : String) : RunOutcome :=
  finishRun (loopIter oracle screenCapture 0 10 []
    [Message.userInit (initialText context goal) screenCapture])

end Part005

/-! ### Concrete fixtures: scripted engines and the values they produce -/

/-- The move action of the repo's own test scripts (test/computer-use.test.js,
part_002): coordinates (100, 200). -/
def moveAction100 : WireAction :=
  { type := .str "mouse", action := .str "move",
    coordinates := some { x := .num 100, y := .num 200 } }

/-- The left single-click action of the same test scripts. -/
def clickActionLeft : WireAction :=
  { type := .str "mouse", action := .str "click", button := .str "left", clicks := .num 1 }

/-- A left click with click count 2: the double-click wire shape. -/
def dblClickActionLeft : WireAction :=
  { type := .str "mouse", action := .str "click", button := .str "left", clicks := .num 2 }

/-- A computer tool-use block with the given id and action payload. -/
def computerBlock (id : String) (a : WireAction) : Block :=
  { type := "tool_use", id := id,
    tool_use := some { name := .str "computer", input := some { action := some a } } }

/-- A mouse-move tool-use block, as the repo's own tests script it. -/
def moveBlock : Block := computerBlock "tool-1" moveAction100

/-- A left single-click tool-use block. -/
def clickBlock : Block := computerBlock "tool-2" clickActionLeft

/-- A text-only block (no tool use): the completion signal. -/
def textBlock : Block :=
  { type := "text", text := "I have completed the task." }

/-- A click whose button is the string "middle": well-formed on the wire but
outside the validator's accepted set. -/
def clickMiddleAction : WireAction :=
  { type := .str "mouse", action := .str "click", button := .str "middle", clicks := .num 1 }

/-- A computer tool-use block carrying `clickMiddleAction`. -/
def clickMiddleBlock : Block := computerBlock "tool-9" clickMiddleAction

/-- A mouse move whose `coordinates` object is absent. -/
def moveNoCoords : WireAction := { type := .str "mouse", action := .str "move" }

/-- A mouse drag whose `end` object is absent. -/
def dragNoEnd : WireAction := { type := .str "mouse", action := .str "drag" }

/-- A computer tool-use block whose move action has no coordinates. -/
def badMoveBlock : Block := computerBlock "tool-5" moveNoCoords

/-- The instruction the move block translates to. -/
def moveInstr100 : Instruction := { type := .str "move", x := .num 100, y := .num 200 }

/-- The instruction the left single-click block translates to. -/
def clickInstrLeft : Instruction := { type := .str "click", button := .str "left" }

/-- The instruction the middle-click action translates to. -/
def clickMiddleInstr : Instruction := { type := .str "click", button := .str "middle" }

/-- A move instruction whose delay is the string "200ms", the failing input
of the repo's own test "should throw error for invalid delay type". -/
def delayInstr : Instruction :=
  { type := .str "move", x := .num 100, y := .num 200, delay := .str "200ms" }

/-- The scripted engine of the spec's loop-termination property: a move on
call 1, a click on call 2, text only on call 3. -/
def script3 : Nat → Except JsError Response := fun n =>
  if n = 0 then .ok { content := [moveBlock] }
  else if n = 1 then .ok { content := [clickBlock] }
  else .ok { content := [textBlock] }

/-- A scripted engine that emits a middle-button click, then completes. -/
def scriptMiddle : Nat → Except JsError Response := fun n =>
  if n = 0 then .ok { content := [clickMiddleBlock] }
  else .ok { content := [textBlock] }

/-- A scripted engine that completes at once (text only). -/
def scriptText : Nat → Except JsError Response := fun _ =>
  .ok { content := [textBlock] }

/-- A scripted engine that always requests one more move: the loop-cap
scenario. -/
def moveOracle : Nat → Except JsError Response := fun _ =>
  .ok { content := [moveBlock] }

/-- A scripted engine whose first call returns a move and whose second call
throws. -/
def scriptErr : Nat → Except JsError Response := fun n =>
  if n = 0 then .ok { content := [moveBlock] }
  else .error (.error "Connection error")

/-- A scripted engine whose first response carries a move without
coordinates. -/
def scriptBadMove : Nat → Except JsError Response := fun _ =>
  .ok { content := [badMoveBlock] }

instance {ε α : Type} [DecidableEq ε] [DecidableEq α] : DecidableEq (Except ε α) := fun a b =>
  match a, b with
  | .error e, .error f =>
    if h : e = f then .isTrue (by rw [h]) else .isFalse (fun hh => by cases hh; exact h rfl)
  | .ok x, .ok y =>
    if h : x = y then .isTrue (by rw [h]) else .isFalse (fun hh => by cases hh; exact h rfl)
  | .error _, .ok _ => .isFalse (fun hh => by cases hh)
  | .ok _, .error _ => .isFalse (fun hh => by cases hh)

namespace ClaudeApi

/-- The acknowledgement the loop synthesizes for a tool-use id. -/
def mkAck (id screenCapture : String) : ToolResult :=
  { tool_use_id := id, content := { result := "success", screenshot := screenCapture } }

lemma processBlock_spec (sc : String) (b : Block) (i : Option Instruction)
    (a : Option ToolResult) (u : Bool)
    (h : processBlock sc b = .ok (i, a, u)) :
    u = isComputerToolUse b ∧
    a = (if isComputerToolUse b then some (mkAck b.id sc) else none) ∧
    (i.isSome = true → a.isSome = true) := by
  by_cases ht : b.type = "tool_use"
  · cases htu : b.tool_use with
    | none =>
      rw [processBlock, if_pos ht, htu] at h
      cases h
    | some tu =>
      rw [processBlock, if_pos ht, htu] at h
      dsimp only at h
      by_cases hn : tu.name = JVal.str "computer"
      · rw [if_pos hn] at h
        cases hin : tu.input with
        | none => rw [hin] at h; cases h
        | some input =>
          rw [hin] at h
          dsimp only at h
          cases hta : translateAction input.action with
          | error e => rw [hta] at h; cases h
          | ok instr =>
            rw [hta] at h
            simp only [Except.ok.injEq, Prod.mk.injEq] at h
            obtain ⟨h1, h2, h3⟩ := h
            subst h1 h2 h3
            simp [isComputerToolUse, ht, htu, hn, mkAck]
      · rw [if_neg hn] at h
        simp only [Except.ok.injEq, Prod.mk.injEq] at h
        obtain ⟨h1, h2, h3⟩ := h
        subst h1 h2 h3
        simp [isComputerToolUse, ht, htu, hn]
  · rw [processBlock, if_neg ht] at h
    simp only [Except.ok.injEq, Prod.mk.injEq] at h
    obtain ⟨h1, h2, h3⟩ := h
    subst h1 h2 h3
    simp [isComputerToolUse, ht]

lemma processContent_spec (sc : String) : ∀ (bs : List Block) (instrs : List Instruction)
    (acks : List ToolResult) (u : Bool),
    processContent sc bs = .ok (instrs, acks, u) →
    acks = (bs.filter isComputerToolUse).map (fun b => mkAck b.id sc) ∧
    u = bs.any isComputerToolUse ∧
    instrs.length ≤ acks.length := by
  intro bs
  induction bs with
  | nil =>
    intro instrs acks u h
    simp only [processContent, Except.ok.injEq, Prod.mk.injEq] at h
    obtain ⟨h1, h2, h3⟩ := h
    subst h1 h2 h3
    simp
  | cons b rest ih =>
    intro instrs acks u h
    simp only [processContent] at h
    cases hb : processBlock sc b with
    | error e => rw [hb] at h; cases h
    | ok trip =>
      obtain ⟨ib, ab, ub⟩ := trip
      rw [hb] at h
      dsimp only at h
      cases hr : processContent sc rest with
      | error e => rw [hr] at h; cases h
      | ok trip2 =>
        obtain ⟨is2, acks2, u2⟩ := trip2
        rw [hr] at h
        dsimp only at h
        simp only [Except.ok.injEq, Prod.mk.injEq] at h
        obtain ⟨h1, h2, h3⟩ := h
        subst h1 h2 h3
        obtain ⟨hu, ha, himp⟩ := processBlock_spec sc b ib ab ub hb
        obtain ⟨ha2, hu2, hlen⟩ := ih is2 acks2 u2 hr
        subst hu ha ha2 hu2
        refine ⟨?_, ?_, ?_⟩
        · by_cases hc : isComputerToolUse b
          · simp [hc, List.filter_cons]
          · simp [hc, List.filter_cons]
        · by_cases hc : isComputerToolUse b
          · simp [hc, List.any_cons]
          · simp [hc, List.any_cons]
        · have hib : ib.toList.length ≤ 1 := by cases ib <;> simp
          have hlen2 : is2.length ≤ ((rest.filter isComputerToolUse).map
              (fun b => mkAck b.id sc)).length := hlen
          rw [List.length_map] at hlen2
          by_cases hc : isComputerToolUse b
          · simp [hc]
            omega
          · have hib0 : ib = none := by
              cases hib0 : ib with
              | none => rfl
              | some v =>
                have := himp (by simp [hib0])
                simp [hc] at this
            subst hib0
            simp [hc]
            omega

lemma loopIter_calls_le (oracle : Nat → Except JsError Response) (sc : String) :
    ∀ (r i : Nat) (instrs : List Instruction) (msgs : List Message),
      (loopIter oracle sc i r instrs msgs).calls ≤ i + r := by
  intro r
  induction r with
  | zero => intro i instrs msgs; simp [loopIter]
  | succ r ih =>
    intro i instrs msgs
    rw [loopIter]
    cases ho : oracle i with
    | error e => dsimp only; omega
    | ok response =>
      dsimp only
      cases hp : processContent sc response.content with
      | error e => dsimp only; omega
      | ok trip =>
        obtain ⟨ni, ta, ut⟩ := trip
        dsimp only
        cases ut with
        | true =>
          rw [if_pos rfl]
          exact le_trans (ih (i + 1) (instrs ++ ni) _) (by omega)
        | false =>
          rw [if_neg (by simp)]
          dsimp only
          omega

lemma turnInstrs_eq (oracle : Nat → Except JsError Response) (sc : String) (n : Nat)
    (resp : Response) (instrs : List Instruction) (acks : List ToolResult) (u : Bool)
    (ho : oracle n = .ok resp) (hp : processContent sc resp.content = .ok (instrs, acks, u)) :
    turnInstrs oracle sc n = instrs := by
  rw [turnInstrs, ho]
  dsimp only
  rw [hp]

lemma loopIter_all (oracle : Nat → Except JsError Response) (sc : String) :
    ∀ (r i : Nat) (instrs : List Instruction) (msgs : List Message),
      (∀ n, i ≤ n → n < i + r → turnLoops oracle sc n) →
      (loopIter oracle sc i r instrs msgs).result =
        .ok (instrs ++ turnsInstrs oracle sc i r) ∧
      (loopIter oracle sc i r instrs msgs).calls = i + r := by
  intro r
  induction r with
  | zero =>
    intro i instrs msgs h
    simp [loopIter, turnsInstrs]
  | succ r ih =>
    intro i instrs msgs hall
    obtain ⟨resp, nis, nacks, ho, hp⟩ := hall i (le_refl i) (by omega)
    rw [loopIter, ho]
    dsimp only
    rw [hp]
    dsimp only
    rw [if_pos rfl]
    have hrec := ih (i + 1) (instrs ++ nis)
      (if 0 < nacks.length then
        msgs ++ [Message.assistant resp.content, Message.userToolResults nacks]
      else msgs ++ [Message.assistant resp.content])
      (fun n h1 h2 => hall n (by omega) (by omega))
    constructor
    · rw [hrec.1, turnsInstrs, turnInstrs_eq oracle sc i resp nis nacks true ho hp,
        List.append_assoc]
    · rw [hrec.2]
      omega

lemma turnsInstrs_len (oracle : Nat → Except JsError Response) (sc : String) :
    ∀ (r i : Nat), (∀ n, i ≤ n → n < i + r → (turnInstrs oracle sc n).length ≤ 1) →
      (turnsInstrs oracle sc i r).length ≤ r := by
  intro r
  induction r with
  | zero => intro i _; simp [turnsInstrs]
  | succ r ih =>
    intro i h
    rw [turnsInstrs, List.length_append]
    have h1 := h i (le_refl i) (by omega)
    have h2 := ih (i + 1) (fun n a b => h n (by omega) (by omega))
    omega

lemma loopIter_stops (oracle : Nat → Except JsError Response) (sc : String) (k : Nat) :
    ∀ (r i : Nat) (instrs : List Instruction) (msgs : List Message),
      i ≤ k → k < i + r →
      (∀ n, i ≤ n → n < k → turnLoops oracle sc n) →
      turnStops oracle sc k →
      (loopIter oracle sc i r instrs msgs).calls = k + 1 ∧
      ∃ l, (loopIter oracle sc i r instrs msgs).result = .ok l := by
  intro r
  induction r with
  | zero => intro i instrs msgs h1 h2 _ _; omega
  | succ r ih =>
    intro i instrs msgs hik hkr hall hstop
    rcases Nat.lt_or_ge i k with hlt | hge
    · obtain ⟨resp, nis, nacks, ho, hp⟩ := hall i (le_refl i) hlt
      rw [loopIter, ho]
      dsimp only
      rw [hp]
      dsimp only
      rw [if_pos rfl]
      exact ih (i + 1) (instrs ++ nis) _ (by omega) (by omega)
        (fun n a b => hall n (by omega) b) hstop
    · have hik2 : i = k := by omega
      subst hik2
      obtain ⟨resp, nis, nacks, ho, hp⟩ := hstop
      rw [loopIter, ho]
      dsimp only
      rw [hp]
      dsimp only
      rw [if_neg (by simp)]
      exact ⟨rfl, instrs ++ nis, rfl⟩

lemma loopIter_error (oracle : Nat → Except JsError Response) (sc : String) (k : Nat)
    (e : JsError) :
    ∀ (r i : Nat) (instrs : List Instruction) (msgs : List Message),
      i ≤ k → k < i + r →
      (∀ n, i ≤ n → n < k → turnLoops oracle sc n) →
      oracle k = .error e →
      (loopIter oracle sc i r instrs msgs).result = .error e ∧
      (loopIter oracle sc i r instrs msgs).calls = k + 1 := by
  intro r
  induction r with
  | zero => intro i instrs msgs h1 h2 _ _; omega
  | succ r ih =>
    intro i instrs msgs hik hkr hall herr
    rcases Nat.lt_or_ge i k with hlt | hge
    · obtain ⟨resp, nis, nacks, ho, hp⟩ := hall i (le_refl i) hlt
      rw [loopIter, ho]
      dsimp only
      rw [hp]
      dsimp only
      rw [if_pos rfl]
      exact ih (i + 1) (instrs ++ nis) _ (by omega) (by omega)
        (fun n a b => hall n (by omega) b) herr
    · have hik2 : i = k := by omega
      subst hik2
      rw [loopIter, herr]
      exact ⟨rfl, rfl⟩

lemma validateLoopRun_spec : ∀ (l : List Instruction),
    (validateLoopRun l).2 = l ∧ (validateLoopRun l).1 = validateLoop l := by
  intro l
  induction l with
  | nil => simp [validateLoopRun, validateLoop]
  | cons i rest ih =>
    rw [validateLoopRun, validateLoop]
    cases hc : checkInstruction i with
    | error e => exact ⟨rfl, rfl⟩
    | ok u =>
      dsimp only
      exact ⟨by rw [ih.1], ih.2⟩

end ClaudeApi

namespace Part005

lemma finishRun_validates (o : RunOutcome) (l : List Instruction)
    (h : (finishRun o).result = .ok l) :
    validateInstructions l = .ok () := by
  rw [finishRun] at h
  cases hr : o.result with
  | error e =>
    rw [hr] at h
    dsimp only at h
    rw [hr] at h
    cases h
  | ok instrs =>
    rw [hr] at h
    dsimp only at h
    cases hv : validateInstructions instrs with
    | error e => rw [hv] at h; dsimp only at h; cases h
    | ok u =>
      rw [hv] at h
      dsimp only at h
      rw [hr] at h
      cases h
      cases u
      exact hv

end Part005


/-- Claim C1 counterexample: against src/src/claude-api.js, an engine that
emits a middle-button click makes getCursorInstructions return, without any
error, a list that its own Instruction Validator rejects — so no validation
happens before returning. -/
theorem spec_c1_counterexample :
    (ClaudeApi.getCursorInstructions scriptMiddle "shot" "ctx" "goal").result =
      Except.ok [clickMiddleInstr] ∧
    ClaudeApi.validateInstructions [clickMiddleInstr] =
      Except.error (JsError.error "click instruction has invalid 'button' property") :=
  ⟨rfl, rfl⟩

/-- Claim C1 as amended: the part_005 copy of getCursorInstructions validates
the accumulated list before returning it — a returned list always passes
validation, and on the same middle-click script the validation error is
raised to the caller.  The src/src/claude-api.js copy returns the list
unvalidated (see the counterexample). -/
theorem spec_c1_amended :
    (∀ (oracle : Nat → Except JsError Response) (sc c g : String) (l : List Instruction),
      (Part005.getCursorInstructions oracle sc c g).result = Except.ok l →
      Part005.validateInstructions l = Except.ok ()) ∧
    (Part005.getCursorInstructions scriptMiddle "shot" "ctx" "goal").result =
      Except.error (JsError.error "click instruction has invalid 'button' property") := by
  constructor
  · intro oracle sc c g l h
    exact Part005.finishRun_validates _ l h
  · rfl

/-- Claim C1 witness: the amended theorem applied to a concrete engine whose
run returns the empty list. -/
theorem spec_c1_witness : Part005.validateInstructions [] = Except.ok () :=
  spec_c1_amended.1 scriptText "s" "c" "g" [] rfl

/-- Claim C2: getCursorInstructions makes at most 10 remote calls; if every
one of the 10 turns keeps the loop going, the cap is hit and the accumulated
instructions are returned normally (no error); with one computer tool-use
block per response the returned list has at most 10 instructions. -/
theorem spec_c2 (oracle : Nat → Except JsError Response) (sc context goal : String) :
    (ClaudeApi.getCursorInstructions oracle sc context goal).calls ≤ 10 ∧
    ((∀ n, n < 10 → ClaudeApi.turnLoops oracle sc n) →
      (ClaudeApi.getCursorInstructions oracle sc context goal).calls = 10 ∧
      ∃ l, (ClaudeApi.getCursorInstructions oracle sc context goal).result = Except.ok l ∧
        ((∀ n, n < 10 → ∃ resp, oracle n = Except.ok resp ∧
            (resp.content.filter ClaudeApi.isComputerToolUse).length = 1) →
          l.length ≤ 10)) := by
  constructor
  · exact ClaudeApi.loopIter_calls_le oracle sc 10 0 [] _
  · intro hall
    have h10 := ClaudeApi.loopIter_all oracle sc 10 0 []
      [Message.userInit (initialText context goal) sc]
      (fun n h1 h2 => hall n (by omega))
    refine ⟨h10.2, [] ++ ClaudeApi.turnsInstrs oracle sc 0 10, h10.1, ?_⟩
    intro hone
    have hlen := ClaudeApi.turnsInstrs_len oracle sc 10 0 ?_
    · simpa using hlen
    · intro n h1 h2
      obtain ⟨resp, hresp, hcount⟩ := hone n (by omega)
      obtain ⟨resp2, nis, nacks, ho2, hp2⟩ := hall n (by omega)
      rw [hresp] at ho2
      injection ho2 with ho2
      subst ho2
      obtain ⟨hacks, hu, hle⟩ := ClaudeApi.processContent_spec sc resp.content nis nacks true hp2
      rw [ClaudeApi.turnInstrs_eq oracle sc n resp nis nacks true hresp hp2]
      calc nis.length ≤ nacks.length := hle
        _ = 1 := by rw [hacks, List.length_map, hcount]

/-- Claim C2 witness: the theorem applied to a scripted engine that always
returns one move tool-use block. -/
theorem spec_c2_witness :
    (ClaudeApi.getCursorInstructions moveOracle "shot" "ctx" "goal").calls = 10 ∧
    ∃ l, (ClaudeApi.getCursorInstructions moveOracle "shot" "ctx" "goal").result =
      Except.ok l ∧ l.length ≤ 10 := by
  have h := (spec_c2 moveOracle "shot" "ctx" "goal").2
    (fun n hn => ⟨{ content := [moveBlock] }, [moveInstr100],
      [ClaudeApi.mkAck "tool-1" "shot"], rfl, rfl⟩)
  obtain ⟨hcap, l, hres, hlen⟩ := h
  exact ⟨hcap, l, hres, hlen (fun n hn => ⟨{ content := [moveBlock] }, rfl, rfl⟩)⟩

/-- Claim C3: if the engine's turns before `k` all keep the loop going and
turn `k` has no tool-use block, getCursorInstructions makes exactly `k + 1`
remote calls and returns normally; on the scripted move/click/text engine it
makes exactly 3 calls and returns the move and click instructions in
emission order. -/
theorem spec_c3 (oracle : Nat → Except JsError Response) (sc context goal : String) (k : Nat)
    (hk : k < 10)
    (hbefore : ∀ j, j < k → ClaudeApi.turnLoops oracle sc j)
    (hstop : ClaudeApi.turnStops oracle sc k) :
    (ClaudeApi.getCursorInstructions oracle sc context goal).calls = k + 1 ∧
    (∃ l, (ClaudeApi.getCursorInstructions oracle sc context goal).result = Except.ok l) ∧
    (ClaudeApi.getCursorInstructions script3 "shot" "ctx" "goal").calls = 3 ∧
    (ClaudeApi.getCursorInstructions script3 "shot" "ctx" "goal").result =
      Except.ok [moveInstr100, clickInstrLeft] := by
  have h := ClaudeApi.loopIter_stops oracle sc k 10 0 []
    [Message.userInit (initialText context goal) sc] (by omega) (by omega)
    (fun n h1 h2 => hbefore n h2) hstop
  exact ⟨h.1, h.2, rfl, rfl⟩

/-- Claim C3 witness: the theorem applied to the scripted move/click/text
engine, stopping at turn 2. -/
theorem spec_c3_witness :
    (ClaudeApi.getCursorInstructions script3 "shot" "ctx" "goal").calls = 2 + 1 ∧
    ∃ l, (ClaudeApi.getCursorInstructions script3 "shot" "ctx" "goal").result =
      Except.ok l := by
  have hb : ∀ j, j < 2 → ClaudeApi.turnLoops script3 "shot" j := by
    intro j hj
    interval_cases j
    · exact ⟨{ content := [moveBlock] }, [moveInstr100],
        [ClaudeApi.mkAck "tool-1" "shot"], rfl, rfl⟩
    · exact ⟨{ content := [clickBlock] }, [clickInstrLeft],
        [ClaudeApi.mkAck "tool-2" "shot"], rfl, rfl⟩
  have hs : ClaudeApi.turnStops script3 "shot" 2 :=
    ⟨{ content := [textBlock] }, [], [], rfl, rfl⟩
  have h := spec_c3 script3 "shot" "ctx" "goal" 2 (by omega) hb hs
  exact ⟨h.1, h.2.1⟩

/-- Claim C4 counterexample: translation is not total — a mouse move without
coordinates, a drag without end coordinates, and a tool-use block without an
action payload all raise a TypeError, and such an error aborts the whole
run rather than the block being skipped. -/
theorem spec_c4_counterexample :
    translateAction (some moveNoCoords) =
      Except.error (JsError.typeError "Cannot read properties of undefined (reading 'x')") ∧
    translateAction (some dragNoEnd) =
      Except.error (JsError.typeError "Cannot read properties of undefined (reading 'x')") ∧
    translateAction none =
      Except.error (JsError.typeError "Cannot read properties of undefined (reading 'type')") ∧
    (ClaudeApi.getCursorInstructions scriptBadMove "s" "c" "g").result =
      Except.error (JsError.typeError "Cannot read properties of undefined (reading 'x')") :=
  ⟨rfl, rfl, rfl, rfl⟩

/-- Claim C4 as amended: translation never raises on unrecognized input — a
non-mouse kind or an unknown mouse sub-action yields no instruction and is
skipped — but a move without `coordinates`, a drag without `end`, or a
missing action payload raises a TypeError; a click and a well-formed
move/drag always translate. -/
theorem spec_c4_amended (a : WireAction) :
    (a.type ≠ JVal.str "mouse" → translateAction (some a) = Except.ok none) ∧
    (a.type = JVal.str "mouse" → a.action ≠ JVal.str "move" → a.action ≠ JVal.str "click" →
      a.action ≠ JVal.str "drag" → translateAction (some a) = Except.ok none) ∧
    (a.type = JVal.str "mouse" → a.action = JVal.str "click" →
      ∃ i, translateAction (some a) = Except.ok (some i)) ∧
    (a.type = JVal.str "mouse" → a.action = JVal.str "move" → a.coordinates = none →
      translateAction (some a) =
        Except.error (JsError.typeError "Cannot read properties of undefined (reading 'x')")) ∧
    (a.type = JVal.str "mouse" → a.action = JVal.str "move" → ∀ c, a.coordinates = some c →
      translateAction (some a) =
        Except.ok (some { type := JVal.str "move", x := c.x, y := c.y })) ∧
    (a.type = JVal.str "mouse" → a.action = JVal.str "drag" → a.«end» = none →
      translateAction (some a) =
        Except.error (JsError.typeError "Cannot read properties of undefined (reading 'x')")) ∧
    (a.type = JVal.str "mouse" → a.action = JVal.str "drag" → ∀ c, a.«end» = some c →
      translateAction (some a) =
        Except.ok (some { type := JVal.str "drag", x := c.x, y := c.y })) ∧
    translateAction none =
      Except.error (JsError.typeError "Cannot read properties of undefined (reading 'type')") := by
  refine ⟨?_, ?_, ?_, ?_, ?_, ?_, ?_, rfl⟩
  · intro ht
    rw [translateAction, if_neg ht]
  · intro ht h1 h2 h3
    rw [translateAction, if_pos ht, translateMouse, if_neg h1, if_neg h2, if_neg h3]
  · intro ht ha
    rw [translateAction, if_pos ht, translateMouse, ha, if_neg (by decide), if_pos rfl]
    by_cases hb : a.button = JVal.str "left" ∧ a.clicks = JVal.num 2
    · rw [if_pos hb]; exact ⟨_, rfl⟩
    · rw [if_neg hb]; exact ⟨_, rfl⟩
  · intro ht ha hc
    rw [translateAction, if_pos ht, translateMouse, ha, if_pos rfl, hc]
  · intro ht ha c hc
    rw [translateAction, if_pos ht, translateMouse, ha, if_pos rfl, hc]
  · intro ht ha hc
    rw [translateAction, if_pos ht, translateMouse, ha, if_neg (by decide),
      if_neg (by decide), if_pos rfl, hc]
  · intro ht ha c hc
    rw [translateAction, if_pos ht, translateMouse, ha, if_neg (by decide),
      if_neg (by decide), if_pos rfl, hc]

/-- Claim C4 witness: the amended theorem applied to the middle-button click
action. -/
theorem spec_c4_witness : ∃ i, translateAction (some clickMiddleAction) = Except.ok (some i) :=
  (spec_c4_amended clickMiddleAction).2.2.1 rfl rfl

/-- Claim C5: a mouse click with button left and click count 2 becomes a
double-click with button left; with click count 1 it becomes a click with
button left; every other button/count combination becomes a click carrying
the action's button verbatim. -/
theorem spec_c5 (a : WireAction) (ht : a.type = JVal.str "mouse")
    (ha : a.action = JVal.str "click") :
    (a.button = JVal.str "left" → a.clicks = JVal.num 2 →
      translateAction (some a) =
        Except.ok (some { type := JVal.str "double-click", button := JVal.str "left" })) ∧
    (a.button = JVal.str "left" → a.clicks = JVal.num 1 →
      translateAction (some a) =
        Except.ok (some { type := JVal.str "click", button := JVal.str "left" })) ∧
    (¬(a.button = JVal.str "left" ∧ a.clicks = JVal.num 2) →
      translateAction (some a) =
        Except.ok (some { type := JVal.str "click", button := a.button })) := by
  refine ⟨?_, ?_, ?_⟩
  · intro hb hc
    rw [translateAction, if_pos ht, translateMouse, ha, if_neg (by decide), if_pos rfl,
      if_pos ⟨hb, hc⟩]
  · intro hb hc
    rw [translateAction, if_pos ht, translateMouse, ha, if_neg (by decide), if_pos rfl,
      if_neg (by simp [hc]), hb]
  · intro hnot
    rw [translateAction, if_pos ht, translateMouse, ha, if_neg (by decide), if_pos rfl,
      if_neg hnot]

/-- Claim C5 witness: the theorem applied to the left double-click and the
left single-click actions. -/
theorem spec_c5_witness :
    translateAction (some dblClickActionLeft) =
      Except.ok (some { type := JVal.str "double-click", button := JVal.str "left" }) ∧
    translateAction (some clickActionLeft) =
      Except.ok (some { type := JVal.str "click", button := JVal.str "left" }) := by
  constructor
  · exact (spec_c5 dblClickActionLeft rfl rfl).1 rfl rfl
  · exact (spec_c5 clickActionLeft rfl rfl).2.1 rfl rfl

/-- Claim C6: on the repo's own failing input — a move instruction whose
delay is the string "200ms" — the exported validateInstructions of
src/src/claude-api.js succeeds (it has no delay check), while the part_005
copy fails with the invalid-delay error the claim and the repo's test
expect. -/
theorem spec_c6_eval :
    ClaudeApi.validateInstructions [delayInstr] = Except.ok true ∧
    Part005.validateInstructions [delayInstr] =
      Except.error (JsError.error "Delay must be a number") :=
  ⟨rfl, rfl⟩

/-- Claim C7: in a successfully processed turn of src/src/claude-api.js, the
synthesized tool results are exactly one acknowledgement per computer
tool-use block — keyed to that block's id and carrying the success marker
with the original screenshot — whatever the block's action was; they are
nonempty whenever the loop continues, and the loop's next state carries them
as the next user turn. -/
theorem spec_c7 (oracle : Nat → Except JsError Response) (sc : String) (i fuel : Nat)
    (instrs : List Instruction) (msgs : List Message) (bs : List Block)
    (nis : List Instruction) (acks : List ToolResult)
    (hresp : oracle i = Except.ok { content := bs })
    (hproc : ClaudeApi.processContent sc bs = Except.ok (nis, acks, true)) :
    acks = (bs.filter ClaudeApi.isComputerToolUse).map (fun b => ClaudeApi.mkAck b.id sc) ∧
    acks ≠ [] ∧
    ClaudeApi.loopIter oracle sc i (fuel + 1) instrs msgs =
      ClaudeApi.loopIter oracle sc (i + 1) fuel (instrs ++ nis)
        (msgs ++ [Message.assistant bs, Message.userToolResults acks]) := by
  obtain ⟨hacks, hany, _⟩ := ClaudeApi.processContent_spec sc bs nis acks true hproc
  have hne : acks ≠ [] := by
    rw [hacks]
    have hf : bs.filter ClaudeApi.isComputerToolUse ≠ [] := by
      intro hnil
      rw [List.filter_eq_nil_iff] at hnil
      obtain ⟨x, hx, hpx⟩ := List.any_eq_true.mp hany.symm
      exact hnil x hx hpx
    intro hnil
    exact hf (by rwa [List.map_eq_nil_iff] at hnil)
  refine ⟨hacks, hne, ?_⟩
  rw [ClaudeApi.loopIter, hresp]
  dsimp only
  rw [hproc]
  dsimp only
  rw [if_pos rfl, if_pos (List.length_pos.mpr hne)]

/-- Claim C7 witness: the theorem applied to the first turn of the scripted
move/click/text engine. -/
theorem spec_c7_witness :
    [ClaudeApi.mkAck "tool-1" "shot"] =
      ([moveBlock].filter ClaudeApi.isComputerToolUse).map
        (fun b => ClaudeApi.mkAck b.id "shot") ∧
    ClaudeApi.loopIter script3 "shot" 0 10 [] [] =
      ClaudeApi.loopIter script3 "shot" 1 9 [moveInstr100]
        [Message.assistant [moveBlock],
         Message.userToolResults [ClaudeApi.mkAck "tool-1" "shot"]] := by
  have h := spec_c7 script3 "shot" 0 9 [] [] [moveBlock] [moveInstr100]
    [ClaudeApi.mkAck "tool-1" "shot"] rfl rfl
  exact ⟨h.1, h.2.2⟩

/-- Claim C8: an error raised by remote call `k` (after `k` looping turns)
aborts getCursorInstructions at once — the error is the result, no partial
instruction list is exposed, and exactly `k + 1` calls were made (the
failing call is not retried). -/
theorem spec_c8 (oracle : Nat → Except JsError Response) (sc context goal : String)
    (k : Nat) (e : JsError) (hk : k < 10)
    (hbefore : ∀ j, j < k → ClaudeApi.turnLoops oracle sc j)
    (herr : oracle k = Except.error e) :
    (ClaudeApi.getCursorInstructions oracle sc context goal).result = Except.error e ∧
    (ClaudeApi.getCursorInstructions oracle sc context goal).calls = k + 1 := by
  exact ClaudeApi.loopIter_error oracle sc k e 10 0 []
    [Message.userInit (initialText context goal) sc] (by omega) (by omega)
    (fun n h1 h2 => hbefore n h2) herr

/-- Claim C8 witness: the theorem applied to an engine whose first call
returns a move and whose second call throws. -/
theorem spec_c8_witness :
    (ClaudeApi.getCursorInstructions scriptErr "shot" "ctx" "goal").result =
      Except.error (JsError.error "Connection error") ∧
    (ClaudeApi.getCursorInstructions scriptErr "shot" "ctx" "goal").calls = 1 + 1 := by
  have hb : ∀ j, j < 1 → ClaudeApi.turnLoops scriptErr "shot" j := by
    intro j hj
    interval_cases j
    exact ⟨{ content := [moveBlock] }, [moveInstr100],
      [ClaudeApi.mkAck "tool-1" "shot"], rfl, rfl⟩
  exact spec_c8 scriptErr "shot" "ctx" "goal" 1 (JsError.error "Connection error")
    (by omega) hb rfl

/-- Claim C9: validateInstructions is pure and idempotent — run with the
array state threaded explicitly, the array comes back unchanged, the result
agrees with the plain function of the input alone, and running validation
again on the array left by the first run gives the same outcome. -/
theorem spec_c9 (l : List Instruction) :
    (ClaudeApi.validateInstructionsRun l).2 = l ∧
    (ClaudeApi.validateInstructionsRun l).1 = ClaudeApi.validateInstructions l ∧
    ClaudeApi.validateInstructionsRun ((ClaudeApi.validateInstructionsRun l).2) =
      ClaudeApi.validateInstructionsRun l := by
  have h := ClaudeApi.validateLoopRun_spec l
  have h1 : (ClaudeApi.validateInstructionsRun l).2 = l := by
    rw [ClaudeApi.validateInstructionsRun]
    cases hr : (ClaudeApi.validateLoopRun l).1 with
    | error e => exact h.1
    | ok u => exact h.1
  have h2 : (ClaudeApi.validateInstructionsRun l).1 = ClaudeApi.validateInstructions l := by
    rw [ClaudeApi.validateInstructions, ← h.2, ClaudeApi.validateInstructionsRun]
    cases hr : (ClaudeApi.validateLoopRun l).1 with
    | error e => rfl
    | ok u => rfl
  exact ⟨h1, h2, by rw [h1]⟩

/-- Claim C10: the translator copies the engine-supplied button into the
click instruction verbatim — a middle-button click becomes a click with
button "middle" — and that instruction is exactly what both validators
reject with the invalid-button error; composed through the part_005 run
(the copy that validates), the middle-click engine drives the call into a
validation failure. -/
theorem spec_c10 :
    translateAction (some clickMiddleAction) = Except.ok (some clickMiddleInstr) ∧
    ClaudeApi.validateInstructions [clickMiddleInstr] =
      Except.error (JsError.error "click instruction has invalid 'button' property") ∧
    Part005.validateInstructions [clickMiddleInstr] =
      Except.error (JsError.error "click instruction has invalid 'button' property") ∧
    (Part005.getCursorInstructions scriptMiddle "shot" "ctx" "goal").result =
      Except.error (JsError.error "click instruction has invalid 'button' property") :=
  ⟨rfl, rfl, rfl, rfl⟩
